import Mathlib

/-
  Verification of `langflow/components/astra_assistants/astra_delete_record.py`
  (class `AstraDBDeleteComponent`), as a shallow embedding.

  Python dictionaries are modelled as insertion-ordered association lists
  (`Dict`), with `dictInsert` following Python assignment semantics: an
  existing key keeps its position and has its value replaced, a fresh key is
  appended.  External effects (the astrapy client constructor, the collection
  lookup, the inherited `_search_documents` routine and `delete_many`) are
  modelled by an environment `Env` of oracles whose `Except` results stand for
  "returned normally" versus "raised an exception with the given text".
-/

namespace AstraDelete

/-- JSON-like values carried by the dictionaries in this component. -/
inductive JValue where
  | null : JValue
  | bool : Bool → JValue
  | nat : Nat → JValue
  | str : String → JValue
  | arr : List JValue → JValue
  | obj : List (String × JValue) → JValue


/-- A Python dict: insertion-ordered association list with unique keys kept by
construction of `dictInsert`. -/
abbrev Dict := List (String × JValue)

/-- Python dict assignment `d[k] = v`: replace in place when `k` is present,
append otherwise. -/
def dictInsert (d : Dict) (k : String) (v : JValue) : Dict :=
  if d.any (fun p => p.1 = k) then
    d.map (fun p => if p.1 = k then (k, v) else p)
  else
    d ++ [(k, v)]

/-- Python dict read `d[k]`, as an option. -/
def dictLookup (d : Dict) (k : String) : Option JValue :=
  (d.find? (fun p => p.1 = k)).map (fun p => p.2)

/-- The keys of a dict, in order. -/
def dictKeys (d : Dict) : List String := d.map (fun p => p.1)

/-- `langchain_core.documents.Document`: metadata dict, page content and an
identifier (`None` or a string, hence a `JValue`). -/
structure Document where
  metadata : Dict
  page_content : String
  id : JValue


/-- Modelled from the spec: the repository's generic record container
(`langflow.schema.data.Data`, not under `src/`) — "a generic key-value
container holding a designated text field plus arbitrary metadata".  It holds
the designated text key and the data mapping. -/
structure Data where
  text_key : String
  data : Dict


/-- Modelled from the spec: attribute access `doc.id` on a record resolves
through the record's data mapping ("collect the identifiers of all matched
records"); records built by the conversion step always carry an `id` entry. -/
def dataId (d : Data) : JValue :=
  (dictLookup d.data "id").getD JValue.null

/-- Opaque handle standing for an `astrapy.db.AstraDB` client object. -/
abbrev Client := Nat

/-- The component's fields used by the delete flow: the cached client handle,
the credential and configuration inputs, and the status field set by the
search sub-operation. -/
structure Component where
  client : Option Client
  token : String
  api_endpoint : String
  collection_name : String
  advanced_search_filter : Option Dict
  status : List Data


/-- Environment of external effects for one invocation.  `.error e` models a
raised exception whose `str` is `e`.  `collection_lookup` tells whether
`self.client.collection(...)` returned a truthy collection object; `dele` is
`collection.delete_many`, giving the reported deleted count for the filter it
is invoked with. -/
structure Env where
  init_client : Except String Client
  collection_lookup : Except String Bool
  search_docs : Except String (List Document)
  dele : Dict → Except String Nat

/-- `AstraDBDeleteComponent.__from_document`: `data = document.metadata`
aliases the document's metadata dict, then `data["text"]` and `data["id"]` are
assigned into that same dict.  The returned pair is the document as it stands
after the call (its metadata mutated in place) together with the produced
record, whose data mapping is that same dict. -/
def from_document (doc : Document) : Document × Data :=
  let data := doc.metadata
  let data := dictInsert data "text" (JValue.str doc.page_content)
  let data := dictInsert data "id" doc.id
  ({ doc with metadata := data }, { text_key := "text", data := data })

/-- `AstraDBDeleteComponent.__docs_to_data`: convert each document. -/
def docs_to_data (documents : List Document) : List Data :=
  documents.map (fun doc => (from_document doc).2)

/-- `AstraDBDeleteComponent.search_documents`: run the inherited search,
convert the documents, record the converted list on the status field.  An
`.error` is an exception propagating out of the call. -/
def search_documents (comp : Component) (env : Env) :
    Except String (Component × List Data) :=
  match env.search_docs with
  | .error e => .error e
  | .ok docs =>
      let data := docs_to_data docs
      .ok ({ comp with status := data }, data)

/-- The identifier-membership filter built from the matched records. -/
def idInFilter (documents : List Data) : Dict :=
  [("_id", JValue.obj [("$in", JValue.arr (documents.map dataId))])]

/-- `AstraDBDeleteComponent.__build_filter`: a truthy configured advanced
filter (present and a non-empty dict) is returned verbatim; otherwise the
identifier-membership filter over the matched records. -/
def build_filter (comp : Component) (documents : List Data) : Dict :=
  match comp.advanced_search_filter with
  | some f => if f.isEmpty then idInFilter documents else f
  | none => idInFilter documents

/-- `AstraDBDeleteComponent.__create_result_dict`: one record with text key
`message` holding the deleted count, the success flag, the message and the
dataframe (absent, hence null). -/
def create_result_dict (deleted_count : Nat) (success : Bool)
    (message : String) : List Data :=
  [{ text_key := "message",
     data := [("deleted_count", JValue.nat deleted_count),
              ("success", JValue.bool success),
              ("message", JValue.str message),
              ("dataframe", JValue.null)] }]

/-- The failure record produced by the broad `except` clause, from the raised
exception's text. -/
def failure_result (e : String) : List Data :=
  create_result_dict 0 false ("Failed to delete records: " ++ e)

/-- Outcome of one `delete_records` invocation: the component as left behind
(client and status fields), the returned record list, the filter passed to
`delete_many` when that call was issued, and whether `initialize_client` was
invoked. -/
structure DRResult where
  comp : Component
  ret : List Data
  deleteFilter : Option Dict
  initCalled : Bool


/-- The body of `delete_records` after the client-initialization step, with
`ic` recording whether the constructor ran.  The second `if not self.client`
re-check raises "Failed to initialize AstraDB client" when the field is still
absent. -/
def delete_with_client (comp : Component) (ic : Bool) (env : Env) : DRResult :=
  match comp.client with
  | none => ⟨comp, failure_result "Failed to initialize AstraDB client", none, ic⟩
  | some _ =>
      match env.collection_lookup with
      | .error e => ⟨comp, failure_result e, none, ic⟩
      | .ok false =>
          ⟨comp,
           failure_result ("Collection " ++ comp.collection_name ++ " not found"),
           none, ic⟩
      | .ok true =>
          match search_documents comp env with
          | .error e => ⟨comp, failure_result e, none, ic⟩
          | .ok (comp2, documents) =>
              match env.dele (build_filter comp2 documents) with
              | .error e =>
                  ⟨comp2, failure_result e, some (build_filter comp2 documents), ic⟩
              | .ok _count =>
                  ⟨comp2, documents.take 5, some (build_filter comp2 documents), ic⟩

/-- `AstraDBDeleteComponent.delete_records`.  Step 1 lazily constructs the
client (the `initialize_client` method) when the field is absent; a
constructor exception is caught by the broad handler.  Step 2 resolves the
collection and raises when it is falsy.  Step 3 searches, step 4 builds the
filter, step 5 deletes.  Any `.error` along the way funnels into the single
failure-record shape. -/
def delete_records (comp : Component) (env : Env) : DRResult :=
  match comp.client with
  | some _ => delete_with_client comp false env
  | none =>
      match env.init_client with
      | .error e => ⟨comp, failure_result e, none, true⟩
      | .ok c => delete_with_client { comp with client := some c } true env

/-- Sample document used by witnesses. -/
def sampleDoc : Document :=
  { metadata := [("color", JValue.str "red")],
    page_content := "hello",
    id := JValue.str "d1" }

/-- Sample all-succeeding environment used by witnesses. -/
def sampleEnv : Env :=
  { init_client := .ok 7,
    collection_lookup := .ok true,
    search_docs := .ok [sampleDoc],
    dele := fun _ => .ok 1 }

/-- Sample component with no cached client and no advanced filter. -/
def sampleComp : Component :=
  { client := none, token := "t", api_endpoint := "e",
    collection_name := "c", advanced_search_filter := none, status := [] }

/-- Sample component configured with a truthy advanced filter. -/
def compAdv : Component :=
  { sampleComp with advanced_search_filter := some [("field", JValue.str "x")] }

/-- Sample component configured with a present-but-empty advanced filter. -/
def compEmptyFilter : Component :=
  { sampleComp with advanced_search_filter := some [] }

/-- Sample component with a cached client handle. -/
def compCached : Component :=
  { sampleComp with client := some 42 }

/-- Sample environment whose client constructor raises. -/
def envInitFail : Env :=
  { sampleEnv with init_client := .error "boom" }

/-- Sample environment whose collection lookup returns a falsy object. -/
def envNoColl : Env :=
  { sampleEnv with collection_lookup := .ok false }

/-- Sample environment whose delete call raises. -/
def envDeleteFail : Env :=
  { sampleEnv with dele := fun _ => .error "dfail" }

/-- Sample document whose metadata already contains a `text` key. -/
def docText : Document :=
  { metadata := [("text", JValue.str "old"), ("a", JValue.null)],
    page_content := "new",
    id := JValue.str "i7" }

/-- Sample document with empty metadata. -/
def docPlain : Document :=
  { metadata := [], page_content := "hello", id := JValue.str "d1" }

/-! ## Dictionary lemmas -/

/-- Looking up the just-assigned key returns the assigned value. -/
theorem dictLookup_insert_self (d : Dict) (k : String) (v : JValue) :
    dictLookup (dictInsert d k v) k = some v := by
  unfold dictInsert
  split
  case isTrue h =>
    induction d with
    | nil => simp at h
    | cons p d ih =>
      by_cases hp : p.1 = k
      · simp [dictLookup, hp]
      · simp only [List.any_cons, Bool.or_eq_true, decide_eq_true_eq] at h
        have h2 : d.any (fun p => p.1 = k) = true := by
          rcases h with h | h
          · exact absurd h hp
          · exact h
        have := ih h2
        simpa [dictLookup, hp] using this
  case isFalse h =>
    induction d with
    | nil => simp [dictLookup]
    | cons p d ih =>
      simp only [List.any_cons, Bool.or_eq_true, decide_eq_true_eq, not_or] at h
      have := ih (by simpa using h.2)
      simpa [dictLookup, h.1] using this

/-- In-place replacement of key `k` leaves lookups of a different key `k2`
unchanged. -/
theorem dictLookup_map_ne (d : Dict) (k k2 : String) (v : JValue)
    (hne : k2 ≠ k) :
    dictLookup (d.map (fun p => if p.1 = k then (k, v) else p)) k2
      = dictLookup d k2 := by
  induction d with
  | nil => rfl
  | cons p d ih =>
    by_cases hp : p.1 = k
    · have hp2 : ¬ p.1 = k2 := by rw [hp]; exact fun h => hne h.symm
      simp only [List.map_cons, if_pos hp]
      simpa [dictLookup, Ne.symm hne, hp2] using ih
    · have hcond : (if p.1 = k then ((k, v) : String × JValue) else p) = p :=
        if_neg hp
      by_cases hq : p.1 = k2
      · simp only [List.map_cons, hcond]
        simp [dictLookup, hq]
      · simp only [List.map_cons, hcond]
        simpa [dictLookup, hq] using ih

/-- Appending a pair with key `k` leaves lookups of a different key `k2`
unchanged. -/
theorem dictLookup_append_ne (d : Dict) (k k2 : String) (v : JValue)
    (hne : k2 ≠ k) :
    dictLookup (d ++ [(k, v)]) k2 = dictLookup d k2 := by
  induction d with
  | nil => simp [dictLookup, Ne.symm hne]
  | cons p d ih =>
    by_cases hq : p.1 = k2
    · simp [dictLookup, hq]
    · simpa [dictLookup, hq] using ih

/-- Assigning one key leaves lookups of other keys unchanged. -/
theorem dictLookup_insert_ne (d : Dict) (k k2 : String) (v : JValue)
    (hne : k2 ≠ k) :
    dictLookup (dictInsert d k v) k2 = dictLookup d k2 := by
  unfold dictInsert
  split
  · exact dictLookup_map_ne d k k2 v hne
  · exact dictLookup_append_ne d k k2 v hne

/-! ## Conversion and filter lemmas -/

/-- The converted record binds `id` to the document's identifier. -/
theorem dataId_from_document (doc : Document) :
    dataId (from_document doc).2 = doc.id := by
  simp [dataId, from_document, dictLookup_insert_self]

/-- The converted record binds `text` to the document's page content. -/
theorem from_document_lookup_text (doc : Document) :
    dictLookup (from_document doc).2.data "text"
      = some (JValue.str doc.page_content) := by
  show dictLookup
      (dictInsert (dictInsert doc.metadata "text" (JValue.str doc.page_content))
        "id" doc.id) "text" = _
  rw [dictLookup_insert_ne _ _ _ _ (by decide)]
  exact dictLookup_insert_self _ _ _

/-- The converted record binds `id` to the document's identifier (lookup
form). -/
theorem from_document_lookup_id (doc : Document) :
    dictLookup (from_document doc).2.data "id" = some doc.id :=
  dictLookup_insert_self _ _ _

/-- The identifiers of the converted records are the documents' identifiers,
in order. -/
theorem docs_to_data_map_dataId (docs : List Document) :
    (docs_to_data docs).map dataId = docs.map Document.id := by
  unfold docs_to_data
  rw [List.map_map]
  apply List.map_congr_left
  intro doc _
  exact dataId_from_document doc

/-- A truthy (present, non-empty) advanced filter is returned verbatim. -/
theorem build_filter_truthy (comp : Component) (documents : List Data)
    (f : Dict) (hf : comp.advanced_search_filter = some f) (hne : f ≠ []) :
    build_filter comp documents = f := by
  cases f with
  | nil => exact absurd rfl hne
  | cons a l => simp [build_filter, hf]

/-- A falsy advanced filter (absent or empty) yields the
identifier-membership filter. -/
theorem build_filter_falsy (comp : Component) (documents : List Data)
    (hf : comp.advanced_search_filter = none
      ∨ comp.advanced_search_filter = some []) :
    build_filter comp documents = idInFilter documents := by
  rcases hf with h | h <;> simp [build_filter, h]

/-! ## Control-flow lemmas for the delete operation -/

/-- The post-client part of `delete_records` never touches the client field
and never reports the constructor as having run beyond what it was told. -/
theorem delete_with_client_frame (comp : Component) (ic : Bool) (env : Env) :
    (delete_with_client comp ic env).comp.client = comp.client
    ∧ (delete_with_client comp ic env).initCalled = ic := by
  unfold delete_with_client
  split
  · exact ⟨rfl, rfl⟩
  · split
    · exact ⟨rfl, rfl⟩
    · exact ⟨rfl, rfl⟩
    · split
      · exact ⟨rfl, rfl⟩
      · rename_i comp2 documents heq
        have hc2 : comp2.client = comp.client := by
          unfold search_documents at heq
          rcases hs : env.search_docs with e | docs
          · rw [hs] at heq; exact absurd heq (by simp)
          · rw [hs] at heq
            simp only [Except.ok.injEq, Prod.mk.injEq] at heq
            rw [← heq.1]
        split
        · exact ⟨hc2, rfl⟩
        · exact ⟨hc2, rfl⟩

/-- Whenever the post-client part issues the delete call, the filter it
passes is `build_filter` of the converted search results. -/
theorem delete_with_client_filter (comp : Component) (ic : Bool) (env : Env)
    (d : Dict) (hd : (delete_with_client comp ic env).deleteFilter = some d) :
    ∃ docs, env.search_docs = .ok docs
      ∧ d = build_filter { comp with status := docs_to_data docs }
              (docs_to_data docs) := by
  unfold delete_with_client at hd
  split at hd
  · exact absurd hd (by simp)
  · split at hd
    · exact absurd hd (by simp)
    · exact absurd hd (by simp)
    · split at hd
      · exact absurd hd (by simp)
      · rename_i comp2 documents heq
        unfold search_documents at heq
        rcases hs : env.search_docs with e | docs
        · rw [hs] at heq; exact absurd heq (by simp)
        · rw [hs] at heq
          simp only [Except.ok.injEq, Prod.mk.injEq] at heq
          refine ⟨docs, rfl, ?_⟩
          split at hd <;>
            simp only [Option.some.injEq] at hd <;>
            rw [← hd, ← heq.1, ← heq.2]

/-- Every run of the post-client part either returns the first five converted
search results or the single failure record. -/
theorem delete_with_client_cases (comp : Component) (ic : Bool) (env : Env) :
    (∃ docs, env.search_docs = .ok docs
      ∧ (delete_with_client comp ic env).ret = (docs_to_data docs).take 5)
    ∨ (∃ e, (delete_with_client comp ic env).ret = failure_result e) := by
  unfold delete_with_client
  split
  · exact Or.inr ⟨_, rfl⟩
  · split
    · exact Or.inr ⟨_, rfl⟩
    · exact Or.inr ⟨_, rfl⟩
    · split
      · exact Or.inr ⟨_, rfl⟩
      · rename_i comp2 documents heq
        unfold search_documents at heq
        rcases hs : env.search_docs with e | docs
        · rw [hs] at heq; exact absurd heq (by simp)
        · rw [hs] at heq
          simp only [Except.ok.injEq, Prod.mk.injEq] at heq
          split
          · exact Or.inr ⟨_, rfl⟩
          · exact Or.inl ⟨docs, rfl, by rw [← heq.2]⟩

/-- Assignment preserves every existing key. -/
theorem dictKeys_insert_mem (d : Dict) (k a : String) (v : JValue)
    (h : a ∈ dictKeys d) : a ∈ dictKeys (dictInsert d k v) := by
  unfold dictInsert
  split
  · unfold dictKeys at *
    rw [List.map_map]
    have heq : d.map (fun p => ((if p.1 = k then (k, v) else p) : String × JValue).1)
        = d.map (fun p => p.1) := by
      apply List.map_congr_left
      intro p _
      by_cases hp : p.1 = k <;> simp [hp]
    rw [show ((fun p => p.1) ∘ fun p => if p.1 = k then ((k, v) : String × JValue) else p)
        = fun p : String × JValue => ((if p.1 = k then (k, v) else p) : String × JValue).1
        from rfl]
    rw [heq]
    exact h
  · unfold dictKeys at *
    rw [List.map_append]
    exact List.mem_append_left _ h

/-- When the whole `delete_records` issues the delete call, the filter is
`build_filter` of some component carrying the original advanced filter,
applied to the converted search results. -/
theorem delete_records_filter (comp : Component) (env : Env) (d : Dict)
    (hd : (delete_records comp env).deleteFilter = some d) :
    ∃ comp1 docs,
      comp1.advanced_search_filter = comp.advanced_search_filter
      ∧ env.search_docs = .ok docs
      ∧ d = build_filter comp1 (docs_to_data docs) := by
  unfold delete_records at hd
  split at hd
  · obtain ⟨docs, hs, hbf⟩ := delete_with_client_filter _ _ _ _ hd
    exact ⟨_, docs, rfl, hs, hbf⟩
  · split at hd
    · exact absurd hd (by simp)
    · obtain ⟨docs, hs, hbf⟩ := delete_with_client_filter _ _ _ _ hd
      exact ⟨_, docs, rfl, hs, hbf⟩

/-- When the client is present, the collection truthy, the search successful
and the delete call successful, the post-client part returns the first five
converted results. -/
theorem delete_with_client_success (comp : Component) (ic : Bool) (env : Env)
    (docs : List Document)
    (hcl : comp.client ≠ none)
    (hcoll : env.collection_lookup = .ok true)
    (hs : env.search_docs = .ok docs)
    (hdel : ∀ f, ∃ n, env.dele f = .ok n) :
    (delete_with_client comp ic env).ret = (docs_to_data docs).take 5 := by
  obtain ⟨c, hc⟩ : ∃ c, comp.client = some c := by
    rcases h : comp.client with _ | c
    · exact absurd h hcl
    · exact ⟨c, rfl⟩
  simp only [delete_with_client, search_documents, hc, hcoll, hs]
  split
  · rename_i e heq
    obtain ⟨n, hn⟩ :=
      hdel (build_filter { comp with status := docs_to_data docs }
        (docs_to_data docs))
    exact absurd (hn.symm.trans heq) (by simp)
  · rfl

/-- When the client is present and the collection lookup returns a falsy
object, the post-client part produces the single failure record and no delete
call. -/
theorem delete_with_client_collection_falsy (comp : Component) (ic : Bool)
    (env : Env) (hcl : comp.client ≠ none)
    (hcoll : env.collection_lookup = .ok false) :
    delete_with_client comp ic env
      = ⟨comp,
         failure_result ("Collection " ++ comp.collection_name ++ " not found"),
         none, ic⟩ := by
  obtain ⟨c, hc⟩ : ∃ c, comp.client = some c := by
    rcases h : comp.client with _ | c
    · exact absurd h hcl
    · exact ⟨c, rfl⟩
  simp [delete_with_client, hc, hcoll]

/-- `__build_filter` reads only the advanced-filter field of the
component. -/
theorem build_filter_congr (c1 c2 : Component) (documents : List Data)
    (h : c1.advanced_search_filter = c2.advanced_search_filter) :
    build_filter c1 documents = build_filter c2 documents := by
  unfold build_filter
  rw [h]

/-- When the client is present and the collection lookup raises, the
post-client part produces the failure record carrying that exception's
text. -/
theorem delete_with_client_collection_error (comp : Component) (ic : Bool)
    (env : Env) (e : String) (hcl : comp.client ≠ none)
    (hcoll : env.collection_lookup = .error e) :
    delete_with_client comp ic env = ⟨comp, failure_result e, none, ic⟩ := by
  obtain ⟨c, hc⟩ : ∃ c, comp.client = some c := by
    rcases h : comp.client with _ | c
    · exact absurd h hcl
    · exact ⟨c, rfl⟩
  simp [delete_with_client, hc, hcoll]

/-- When the client is present, the collection truthy and the search raises,
the post-client part produces the failure record carrying that exception's
text. -/
theorem delete_with_client_search_error (comp : Component) (ic : Bool)
    (env : Env) (e : String) (hcl : comp.client ≠ none)
    (hcoll : env.collection_lookup = .ok true)
    (hs : env.search_docs = .error e) :
    delete_with_client comp ic env = ⟨comp, failure_result e, none, ic⟩ := by
  obtain ⟨c, hc⟩ : ∃ c, comp.client = some c := by
    rcases h : comp.client with _ | c
    · exact absurd h hcl
    · exact ⟨c, rfl⟩
  simp [delete_with_client, search_documents, hc, hcoll, hs]

/-- When every step up to the delete call succeeds and the delete call
raises, the post-client part produces the failure record carrying that
exception's text. -/
theorem delete_with_client_delete_error (comp : Component) (ic : Bool)
    (env : Env) (docs : List Document) (e : String)
    (hcl : comp.client ≠ none)
    (hcoll : env.collection_lookup = .ok true)
    (hs : env.search_docs = .ok docs)
    (hdel : env.dele (build_filter { comp with status := docs_to_data docs }
        (docs_to_data docs)) = .error e) :
    (delete_with_client comp ic env).ret = failure_result e := by
  obtain ⟨c, hc⟩ : ∃ c, comp.client = some c := by
    rcases h : comp.client with _ | c
    · exact absurd h hcl
    · exact ⟨c, rfl⟩
  simp only [delete_with_client, search_documents, hc, hcoll, hs]
  split
  · rename_i e2 heq
    have he : Except.error (α := Nat) e = Except.error e2 := hdel.symm.trans heq
    injection he with he
    rw [he]
  · rename_i n heq
    exact absurd (hdel.symm.trans heq) (by simp)

/-- Under the claims' reach condition (cached client, or a constructor that
returns), `delete_records` runs the post-client part on a component whose
client field is present and whose other fields are the original ones. -/
theorem delete_records_to_with_client (comp : Component) (env : Env)
    (hclient : comp.client ≠ none ∨ (∃ c, env.init_client = .ok c)) :
    ∃ compX ic, delete_records comp env = delete_with_client compX ic env
      ∧ compX.client ≠ none
      ∧ compX.collection_name = comp.collection_name
      ∧ compX.advanced_search_filter = comp.advanced_search_filter := by
  rcases hc : comp.client with _ | c
  · rcases hclient with h | ⟨c, hic⟩
    · exact absurd hc h
    · refine ⟨{ comp with client := some c }, true, ?_, by simp, rfl, rfl⟩
      unfold delete_records
      rw [hc, hic]
  · refine ⟨comp, false, ?_, by rw [hc]; simp, rfl, rfl⟩
    unfold delete_records
    rw [hc]

/-! ## Claim theorems -/

/-- C1: whenever a truthy advanced search filter is configured, every filter
actually passed to the bulk-delete call is exactly that configured filter,
independently of the environment (in particular of the search results). -/
theorem advanced_filter_passed_verbatim (comp : Component) (env : Env)
    (f d : Dict) (hf : comp.advanced_search_filter = some f) (hne : f ≠ [])
    (hd : (delete_records comp env).deleteFilter = some d) :
    d = f := by
  obtain ⟨comp1, docs, hadv, hs, hbf⟩ := delete_records_filter comp env d hd
  rw [hbf]
  exact build_filter_truthy comp1 _ f (hadv.trans hf) hne

/-- Witness for C1: with a configured filter, a concrete run issues the
delete with that very filter. -/
theorem advanced_filter_passed_verbatim_witness :
    (delete_records compAdv sampleEnv).deleteFilter
      = some [("field", JValue.str "x")]
    ∧ ([("field", JValue.str "x")] : Dict) = [("field", JValue.str "x")] :=
  ⟨rfl,
   advanced_filter_passed_verbatim compAdv sampleEnv
     [("field", JValue.str "x")] [("field", JValue.str "x")]
     rfl (List.cons_ne_nil _ _) rfl⟩

/-- C2: with no truthy advanced filter, every filter actually passed to the
bulk-delete call is the identifier-membership filter over the matched
documents' identifiers, in search-result order. -/
theorem no_filter_deletes_by_ids (comp : Component) (env : Env)
    (docs : List Document) (d : Dict)
    (hf : comp.advanced_search_filter = none
      ∨ comp.advanced_search_filter = some [])
    (hs : env.search_docs = .ok docs)
    (hd : (delete_records comp env).deleteFilter = some d) :
    d = [("_id", JValue.obj [("$in", JValue.arr (docs.map Document.id))])] := by
  obtain ⟨comp1, docs2, hadv, hs2, hbf⟩ := delete_records_filter comp env d hd
  rw [hs] at hs2
  injection hs2 with hdocs
  subst hdocs
  rw [hbf, build_filter_falsy _ _ (by rw [hadv]; exact hf)]
  unfold idInFilter
  rw [docs_to_data_map_dataId]

/-- Witness for C2: a concrete run with one matched document deletes by that
document's identifier. -/
theorem no_filter_deletes_by_ids_witness :
    [("_id", JValue.obj [("$in", JValue.arr [JValue.str "d1"])])]
      = [("_id", JValue.obj
          [("$in", JValue.arr ([sampleDoc].map Document.id))])] :=
  no_filter_deletes_by_ids sampleComp sampleEnv [sampleDoc]
    [("_id", JValue.obj [("$in", JValue.arr [JValue.str "d1"])])]
    (Or.inl rfl) rfl rfl

/-- C3: `delete_records` never lets an exception out: every run returns
either the first five converted search results or a single failure record
(deleted count zero, failure flag) — and for each way steps 1 through 5 can
raise, the message is "Failed to delete records: " followed by the text of
that very exception: the constructor's error, the collection lookup's error,
the interpolated missing-collection message, the search's error, or the
delete call's error. -/
theorem delete_records_failure_messages (comp : Component) (env : Env) :
    ((∃ docs, env.search_docs = .ok docs
        ∧ (delete_records comp env).ret = (docs_to_data docs).take 5)
      ∨ (∃ e, (delete_records comp env).ret
          = create_result_dict 0 false ("Failed to delete records: " ++ e)))
    ∧ (∀ e, comp.client = none → env.init_client = .error e →
        (delete_records comp env).ret
          = create_result_dict 0 false ("Failed to delete records: " ++ e))
    ∧ (∀ e, (comp.client ≠ none ∨ (∃ c, env.init_client = .ok c)) →
        env.collection_lookup = .error e →
        (delete_records comp env).ret
          = create_result_dict 0 false ("Failed to delete records: " ++ e))
    ∧ ((comp.client ≠ none ∨ (∃ c, env.init_client = .ok c)) →
        env.collection_lookup = .ok false →
        (delete_records comp env).ret
          = create_result_dict 0 false ("Failed to delete records: "
              ++ ("Collection " ++ comp.collection_name ++ " not found")))
    ∧ (∀ e, (comp.client ≠ none ∨ (∃ c, env.init_client = .ok c)) →
        env.collection_lookup = .ok true → env.search_docs = .error e →
        (delete_records comp env).ret
          = create_result_dict 0 false ("Failed to delete records: " ++ e))
    ∧ (∀ e docs, (comp.client ≠ none ∨ (∃ c, env.init_client = .ok c)) →
        env.collection_lookup = .ok true → env.search_docs = .ok docs →
        env.dele (build_filter { comp with status := docs_to_data docs }
            (docs_to_data docs)) = .error e →
        (delete_records comp env).ret
          = create_result_dict 0 false ("Failed to delete records: " ++ e)) := by
  refine ⟨?_, ?_, ?_, ?_, ?_, ?_⟩
  · unfold delete_records
    split
    · exact (delete_with_client_cases _ _ _).imp id (fun ⟨e, h⟩ => ⟨e, h⟩)
    · split
      · exact Or.inr ⟨_, rfl⟩
      · exact (delete_with_client_cases _ _ _).imp id (fun ⟨e, h⟩ => ⟨e, h⟩)
  · intro e hcl hinit
    simp [delete_records, hcl, hinit, failure_result]
  · intro e hclient hcoll
    obtain ⟨compX, ic, heq, hne, _, _⟩ :=
      delete_records_to_with_client comp env hclient
    rw [heq, delete_with_client_collection_error compX ic env e hne hcoll]
    rfl
  · intro hclient hcoll
    obtain ⟨compX, ic, heq, hne, hname, _⟩ :=
      delete_records_to_with_client comp env hclient
    rw [heq, delete_with_client_collection_falsy compX ic env hne hcoll, hname]
    rfl
  · intro e hclient hcoll hs
    obtain ⟨compX, ic, heq, hne, _, _⟩ :=
      delete_records_to_with_client comp env hclient
    rw [heq, delete_with_client_search_error compX ic env e hne hcoll hs]
    rfl
  · intro e docs hclient hcoll hs hdel
    obtain ⟨compX, ic, heq, hne, _, hadv⟩ :=
      delete_records_to_with_client comp env hclient
    have hdelX : env.dele
        (build_filter { compX with status := docs_to_data docs }
          (docs_to_data docs)) = .error e := by
      rw [build_filter_congr { compX with status := docs_to_data docs }
        { comp with status := docs_to_data docs } (docs_to_data docs)
        (by rw [show ({ compX with status := docs_to_data docs }
            : Component).advanced_search_filter
              = compX.advanced_search_filter from rfl, hadv])]
      exact hdel
    rw [heq,
      delete_with_client_delete_error compX ic env docs e hne hcoll hs hdelX]
    rfl

/-- Witness for C3: concrete runs whose constructor raises "boom" and whose
delete call raises "dfail" produce the failure record carrying exactly those
texts. -/
theorem delete_records_failure_messages_witness :
    (delete_records sampleComp envInitFail).ret
        = create_result_dict 0 false ("Failed to delete records: " ++ "boom")
    ∧ (delete_records sampleComp envDeleteFail).ret
        = create_result_dict 0 false ("Failed to delete records: " ++ "dfail") :=
  ⟨(delete_records_failure_messages sampleComp envInitFail).2.1 "boom" rfl rfl,
   (delete_records_failure_messages sampleComp envDeleteFail).2.2.2.2.2
     "dfail" [sampleDoc] (Or.inr ⟨7, rfl⟩) rfl rfl rfl⟩

/-- C4: when every step succeeds, the returned list is the first
`min 5 N` converted search results, in order. -/
theorem success_returns_first_five (comp : Component) (env : Env)
    (docs : List Document)
    (hclient : comp.client ≠ none ∨ (∃ c, env.init_client = .ok c))
    (hcoll : env.collection_lookup = .ok true)
    (hs : env.search_docs = .ok docs)
    (hdel : ∀ f, ∃ n, env.dele f = .ok n) :
    (delete_records comp env).ret = (docs_to_data docs).take 5 := by
  unfold delete_records
  rcases hc : comp.client with _ | c
  · rcases hclient with h | ⟨c, hic⟩
    · exact absurd hc h
    · rw [hic]
      exact delete_with_client_success _ _ _ docs (by simp) hcoll hs hdel
  · exact delete_with_client_success _ _ _ docs (by rw [hc]; simp) hcoll hs hdel

/-- Witness for C4: a fully successful concrete run returns the first five
converted results. -/
theorem success_returns_first_five_witness :
    (delete_records sampleComp sampleEnv).ret
      = (docs_to_data [sampleDoc]).take 5 :=
  success_returns_first_five sampleComp sampleEnv [sampleDoc]
    (Or.inr ⟨7, rfl⟩) rfl rfl (fun _ => ⟨1, rfl⟩)

/-- C5: when the client field is absent and the client constructor raises,
the returned value is exactly one failure record with deleted count zero and
failure flag. -/
theorem init_failure_single_record (comp : Component) (env : Env) (e : String)
    (hcl : comp.client = none) (hinit : env.init_client = .error e) :
    (delete_records comp env).ret
        = create_result_dict 0 false ("Failed to delete records: " ++ e)
    ∧ (delete_records comp env).ret.length = 1 := by
  refine ⟨?_, ?_⟩ <;>
    simp [delete_records, hcl, hinit, failure_result, create_result_dict]

/-- Witness for C5: a concrete run whose constructor raises "boom". -/
theorem init_failure_single_record_witness :
    (delete_records sampleComp envInitFail).ret
        = create_result_dict 0 false ("Failed to delete records: " ++ "boom")
    ∧ (delete_records sampleComp envInitFail).ret.length = 1 :=
  init_failure_single_record sampleComp envInitFail "boom" rfl rfl

/-- C6: when the collection lookup returns a falsy object, the returned value
is exactly one failure record with deleted count zero and failure flag, and
the delete call is never issued. -/
theorem collection_falsy_no_delete (comp : Component) (env : Env)
    (hclient : comp.client ≠ none ∨ (∃ c, env.init_client = .ok c))
    (hcoll : env.collection_lookup = .ok false) :
    (delete_records comp env).ret
        = create_result_dict 0 false
            ("Failed to delete records: "
              ++ ("Collection " ++ comp.collection_name ++ " not found"))
    ∧ (delete_records comp env).ret.length = 1
    ∧ (delete_records comp env).deleteFilter = none := by
  have key : ∀ ic : Bool, ∀ comp2 : Component,
      comp2.client ≠ none → comp2.collection_name = comp.collection_name →
      delete_with_client comp2 ic env
        = ⟨comp2,
           failure_result ("Collection " ++ comp.collection_name ++ " not found"),
           none, ic⟩ := by
    intro ic comp2 h2 hname
    rw [delete_with_client_collection_falsy comp2 ic env h2 hcoll, hname]
  rcases hc : comp.client with _ | c
  · rcases hclient with h | ⟨c, hic⟩
    · exact absurd hc h
    · have h1 : delete_records comp env
          = delete_with_client { comp with client := some c } true env := by
        unfold delete_records
        rw [hc, hic]
      rw [h1, key true { comp with client := some c } (by simp) rfl]
      exact ⟨rfl, rfl, rfl⟩
  · have h1 : delete_records comp env = delete_with_client comp false env := by
      unfold delete_records
      rw [hc]
    rw [h1, key false comp (by rw [hc]; simp) rfl]
    exact ⟨rfl, rfl, rfl⟩

/-- Witness for C6: a concrete run whose collection lookup is falsy. -/
theorem collection_falsy_no_delete_witness :
    (delete_records sampleComp envNoColl).ret
        = create_result_dict 0 false
            ("Failed to delete records: "
              ++ ("Collection " ++ sampleComp.collection_name ++ " not found"))
    ∧ (delete_records sampleComp envNoColl).ret.length = 1
    ∧ (delete_records sampleComp envNoColl).deleteFilter = none :=
  collection_falsy_no_delete sampleComp envNoColl (Or.inr ⟨7, rfl⟩) rfl

/-- C7: the converted record's data mapping keeps every metadata key and
binds `text` to the page content (overwriting any pre-existing `text` entry)
and `id` to the document's identifier. -/
theorem from_document_shape (doc : Document) :
    (∀ k, k ∈ dictKeys doc.metadata → k ∈ dictKeys (from_document doc).2.data)
    ∧ dictLookup (from_document doc).2.data "text"
        = some (JValue.str doc.page_content)
    ∧ dictLookup (from_document doc).2.data "id" = some doc.id := by
  refine ⟨?_, from_document_lookup_text doc, from_document_lookup_id doc⟩
  intro k hk
  exact dictKeys_insert_mem _ _ _ _ (dictKeys_insert_mem _ _ _ _ hk)

/-- Witness for C7: on a document whose metadata already holds a `text`
entry, the entry is overwritten by the page content, the other key survives
and `id` is added. -/
theorem from_document_shape_witness :
    ("a" ∈ dictKeys (from_document docText).2.data)
    ∧ dictLookup (from_document docText).2.data "text"
        = some (JValue.str "new")
    ∧ dictLookup (from_document docText).2.data "id"
        = some (JValue.str "i7") :=
  ⟨(from_document_shape docText).1 "a" (by decide),
   (from_document_shape docText).2.1,
   (from_document_shape docText).2.2⟩

/-- C8 counterexample: on a concrete document the conversion does not leave
the source document's metadata mapping unchanged — it gains the `text` and
`id` entries, refuting the claimed copy semantics. -/
theorem from_document_metadata_changed_cex :
    (from_document docPlain).1.metadata ≠ docPlain.metadata := by
  intro h
  have hlen := congrArg List.length h
  rw [show (from_document docPlain).1.metadata
        = [("text", JValue.str "hello"), ("id", JValue.str "d1")] from rfl,
      show docPlain.metadata = ([] : Dict) from rfl] at hlen
  exact absurd hlen (by decide)

/-- C8 (amended): the conversion aliases rather than copies — the returned
record's data mapping is the document's own (mutated) metadata mapping, which
has gained the `text` and `id` entries. -/
theorem from_document_mutates_and_aliases (doc : Document) :
    (from_document doc).2.data = (from_document doc).1.metadata
    ∧ dictLookup (from_document doc).1.metadata "text"
        = some (JValue.str doc.page_content)
    ∧ dictLookup (from_document doc).1.metadata "id" = some doc.id :=
  ⟨rfl, from_document_lookup_text doc, from_document_lookup_id doc⟩

/-- C9: the client handle is lazily created and cached — when a client is
present, `delete_records` leaves the field unchanged and never runs the
constructor; when absent, the constructor runs. -/
theorem client_lazy_cached (comp : Component) (env : Env) :
    (∀ c, comp.client = some c →
        (delete_records comp env).comp.client = some c
        ∧ (delete_records comp env).initCalled = false)
    ∧ (comp.client = none → (delete_records comp env).initCalled = true) := by
  constructor
  · intro c hc
    have h1 : delete_records comp env = delete_with_client comp false env := by
      unfold delete_records
      rw [hc]
    rw [h1]
    exact ⟨(delete_with_client_frame comp false env).1.trans hc,
           (delete_with_client_frame comp false env).2⟩
  · intro hc
    unfold delete_records
    rw [hc]
    rcases hi : env.init_client with e | c
    · rfl
    · exact (delete_with_client_frame _ true env).2

/-- Witness for C9: a cached client is kept untouched, and an absent client
triggers the constructor. -/
theorem client_lazy_cached_witness :
    ((delete_records compCached sampleEnv).comp.client = some 42
      ∧ (delete_records compCached sampleEnv).initCalled = false)
    ∧ (delete_records sampleComp sampleEnv).initCalled = true :=
  ⟨(client_lazy_cached compCached sampleEnv).1 42 rfl,
   (client_lazy_cached sampleComp sampleEnv).2 rfl⟩

/-- C10: an advanced filter that is present but falsy (an empty mapping) is
ignored: the built filter is the identifier-membership filter, exactly as in
the no-filter case. -/
theorem empty_filter_ignored (comp : Component) (documents : List Data)
    (hf : comp.advanced_search_filter = some []) :
    build_filter comp documents
      = [("_id", JValue.obj [("$in", JValue.arr (documents.map dataId))])]
    ∧ build_filter comp documents
      = build_filter { comp with advanced_search_filter := none } documents := by
  constructor
  · exact build_filter_falsy comp documents (Or.inr hf)
  · rw [build_filter_falsy comp documents (Or.inr hf),
        build_filter_falsy _ documents (Or.inl rfl)]

/-- Witness for C10: the component configured with an empty advanced filter
builds the identifier filter. -/
theorem empty_filter_ignored_witness :
    build_filter compEmptyFilter []
      = [("_id", JValue.obj [("$in", JValue.arr (([] : List Data).map dataId))])]
    ∧ build_filter compEmptyFilter []
      = build_filter { compEmptyFilter with advanced_search_filter := none } [] :=
  empty_filter_ignored compEmptyFilter [] rfl

end AstraDelete
